import Mathlib

/-!
Verification of the parameter-normalization and response-projection logic of
`langchain_community/document_loaders/firecrawl.py`, together with a
spec-modelled account of the DALL-E image-generation wrapper whose unit tests
ship with the sources.

Python dictionaries are embedded as association lists with unique keys kept
implicitly: `lookup` returns the first binding, `set` replaces the binding in
place (or appends a fresh one at the end, as Python dict assignment does) and
`erase` removes the binding (Python `dict.pop`).
-/

/-- A Python-ish value: the payloads that flow through the option maps of
`firecrawl.py`.  `vNone` embeds Python `None`. -/
inductive Value where
  | vNone
  | vStr (s : String)
  | vBool (b : Bool)
  | vInt (n : Int)
  | vList (xs : List Value)
  | vDict (entries : List (String × Value))

/-- A Python dict, embedded as an association list of string keys. -/
abbrev Dict := List (String × Value)

/-- Python truthiness (`bool(v)`) for the embedded values: `None`, empty
strings, zero, and empty containers are falsy. -/
def Value.truthy : Value → Bool
  | vNone => false
  | vStr s => !(s == "")
  | vBool b => b
  | vInt n => !(n == 0)
  | vList xs => !xs.isEmpty
  | vDict es => !es.isEmpty

/-- `d[key]` as an option: the first binding of `key` in `d`. -/
def Dict.lookup : Dict → String → Option Value
  | [], _ => none
  | (k, v) :: rest, key => if k = key then some v else Dict.lookup rest key

/-- Python `del d[key]` / the removal half of `d.pop(key)`. -/
def Dict.erase : Dict → String → Dict
  | [], _ => []
  | (k, v) :: rest, key =>
      if k = key then Dict.erase rest key else (k, v) :: Dict.erase rest key

/-- Python `d[key] = v`: replace the existing binding in place, else append. -/
def Dict.set : Dict → String → Value → Dict
  | [], key, v => [(key, v)]
  | (k, w) :: rest, key, v =>
      if k = key then (key, v) :: rest else (k, w) :: Dict.set rest key v

/-- The rename idiom `params[newKey] = params.pop(oldKey)` guarded by
`if oldKey in params`, as used throughout `firecrawl.py`. -/
def Dict.rename (d : Dict) (oldKey newKey : String) : Dict :=
  match d.lookup oldKey with
  | some v => (d.erase oldKey).set newKey v
  | none => d

theorem Dict.lookup_erase (d : Dict) (k key : String) :
    (d.erase k).lookup key = if key = k then none else d.lookup key := by
  induction d with
  | nil => simp [Dict.erase, Dict.lookup]
  | cons kv rest ih =>
    obtain ⟨k1, v1⟩ := kv
    by_cases h1 : k1 = k
    · subst h1
      have he : Dict.erase ((k1, v1) :: rest) k1 = Dict.erase rest k1 := by
        simp [Dict.erase]
      rw [he, ih]
      by_cases h2 : key = k1
      · simp [h2]
      · simp [Dict.lookup, h2, Ne.symm h2]
    · have he : Dict.erase ((k1, v1) :: rest) k = (k1, v1) :: Dict.erase rest k := by
        simp [Dict.erase, h1]
      rw [he]
      by_cases h2 : k1 = key
      · subst h2
        simp [Dict.lookup, h1]
      · simp [Dict.lookup, h2, ih]

theorem Dict.lookup_set (d : Dict) (k key : String) (v : Value) :
    (d.set k v).lookup key = if key = k then some v else d.lookup key := by
  induction d with
  | nil =>
    by_cases h : key = k
    · simp [Dict.set, Dict.lookup, h]
    · simp [Dict.set, Dict.lookup, h, Ne.symm h]
  | cons kv rest ih =>
    obtain ⟨k1, v1⟩ := kv
    by_cases h1 : k1 = k
    · subst h1
      have hs : Dict.set ((k1, v1) :: rest) k1 v = (k1, v) :: rest := by
        simp [Dict.set]
      rw [hs]
      by_cases h2 : key = k1
      · simp [Dict.lookup, h2]
      · simp [Dict.lookup, h2, Ne.symm h2]
    · have hs : Dict.set ((k1, v1) :: rest) k v = (k1, v1) :: Dict.set rest k v := by
        simp [Dict.set, h1]
      rw [hs]
      by_cases h2 : k1 = key
      · subst h2
        simp [Dict.lookup, h1]
      · simp [Dict.lookup, h2, ih]

theorem Dict.lookup_rename (d : Dict) (o n key : String) :
    (d.rename o n).lookup key =
      if key = n then
        (match d.lookup o with
          | some v => some v
          | none => d.lookup n)
      else if key = o then none
      else d.lookup key := by
  unfold Dict.rename
  cases h : d.lookup o with
  | some v =>
    simp only [h]
    rw [Dict.lookup_set, Dict.lookup_erase]
  | none =>
    simp only [h]
    by_cases h1 : key = n
    · simp [h1]
    · by_cases h2 : key = o
      · subst h2
        simp [h1, h]
      · simp [h1, h2]

theorem Dict.lookup_rename_old (d : Dict) (o n : String) (hon : o ≠ n) :
    (d.rename o n).lookup o = none := by
  rw [Dict.lookup_rename]
  simp [hon]

theorem Dict.lookup_rename_new (d : Dict) (o n : String)
    (hn : d.lookup n = none) : (d.rename o n).lookup n = d.lookup o := by
  rw [Dict.lookup_rename]
  cases h : d.lookup o <;> simp [h, hn]

theorem Dict.lookup_rename_ne (d : Dict) (o n key : String)
    (h1 : key ≠ o) (h2 : key ≠ n) :
    (d.rename o n).lookup key = d.lookup key := by
  rw [Dict.lookup_rename]
  simp [h1, h2]

/-- If every key of `d` lies in `ks`, looking up a key outside `ks` misses. -/
theorem Dict.lookup_eq_none_of_keys_subset (d : Dict) (ks : List String)
    (h : ∀ kv ∈ d, kv.1 ∈ ks) (key : String) (hk : key ∉ ks) :
    d.lookup key = none := by
  induction d with
  | nil => rfl
  | cons kv rest ih =>
    obtain ⟨k1, v1⟩ := kv
    have hk1 : k1 ∈ ks := h (k1, v1) (List.mem_cons_self _ _)
    have hne : k1 ≠ key := fun he => hk (he ▸ hk1)
    simp only [Dict.lookup, if_neg hne]
    exact ih (fun kv hkv => h kv (List.mem_cons_of_mem _ hkv))

/-!
The normalization functions of `FireCrawlLoader`
(`langchain_community/document_loaders/firecrawl.py`).
-/

/-- The `extractorOptions` block at the top of `_prepare_scrape_options`:
`extractor = params.pop("extractorOptions")`, then `extractionPrompt`,
`extractionSchema` and `userPrompt` are copied (in that order) to the
top-level `prompt`/`schema`/`prompt` keys.  A non-mapping `extractorOptions`
value is a runtime type error in the source; the model merely drops the key
there and all theorems restrict to mapping-valued inputs. -/
def extractorStep (d : Dict) : Dict :=
  match d.lookup "extractorOptions" with
  | some (Value.vDict ex) =>
      let d1 := d.erase "extractorOptions"
      let d2 := match Dict.lookup ex "extractionPrompt" with
        | some v => d1.set "prompt" v
        | none => d1
      let d3 := match Dict.lookup ex "extractionSchema" with
        | some v => d2.set "schema" v
        | none => d2
      match Dict.lookup ex "userPrompt" with
        | some v => d3.set "prompt" v
        | none => d3
  | some _ => d.erase "extractorOptions"
  | none => d

/-- `params.pop(key, default)` followed by Python truthiness testing, the
idiom of the format-flag section of `_prepare_scrape_options`. -/
def popFlag (d : Dict) (key : String) (dflt : Bool) : Bool × Dict :=
  (((d.lookup key).getD (Value.vBool dflt)).truthy, d.erase key)

/-- The format-flag section of `_prepare_scrape_options`: seven sequential
`params.pop` calls appending canonical tokens to `formats`; only
`includeMarkdown` defaults to true. -/
def formatsStep (d : Dict) : List String × Dict :=
  let p1 := popFlag d "includeMarkdown" true
  let fs := if p1.1 then ["markdown"] else []
  let p2 := popFlag p1.2 "includeHtml" false
  let fs := fs ++ if p2.1 then ["html"] else []
  let p3 := popFlag p2.2 "includeRawHtml" false
  let fs := fs ++ if p3.1 then ["rawHtml"] else []
  let p4 := popFlag p3.2 "includeExtract" false
  let fs := fs ++ if p4.1 then ["extract"] else []
  let p5 := popFlag p4.2 "includeLinks" false
  let fs := fs ++ if p5.1 then ["links"] else []
  let p6 := popFlag p5.2 "screenshot" false
  let fs := fs ++ if p6.1 then ["screenshot"] else []
  let p7 := popFlag p6.2 "fullPageScreenshot" false
  let fs := fs ++ if p7.1 then ["screenshot@fullPage"] else []
  (fs, p7.2)

/-- `FireCrawlLoader._prepare_scrape_options`: extractor-options handling,
format derivation, the two tag renames, and the final `formats` assembly. -/
def prepare_scrape_options (d : Dict) : Dict :=
  let d1 := extractorStep d
  let p := formatsStep d1
  let d2 := (p.2.rename "onlyIncludeTags" "includeTags").rename
    "removeTags" "excludeTags"
  if (d2.lookup "formats").isSome then d2
  else if !p.1.isEmpty then d2.set "formats" (Value.vList (p.1.map Value.vStr))
  else d2.set "formats" (Value.vList [Value.vStr "markdown"])

/-- `FireCrawlLoader._prepare_crawler_options`: the four crawl-level legacy
renames followed by the nested `pageOptions` → `scrapeOptions` rule.  A
non-mapping `pageOptions` value makes the source raise inside the nested
call; the model passes it through and all theorems restrict to
mapping-valued inputs. -/
def prepare_crawler_options (d : Dict) : Dict :=
  let d1 := d.rename "includes" "includePaths"
  let d2 := d1.rename "excludes" "excludePaths"
  let d3 := d2.rename "allowBackwardCrawling" "allowBackwardLinks"
  let d4 := d3.rename "allowExternalContentLinks" "allowExternalLinks"
  match d4.lookup "pageOptions" with
  | some (Value.vDict po) =>
      (d4.erase "pageOptions").set "scrapeOptions"
        (Value.vDict (prepare_scrape_options po))
  | some v => (d4.erase "pageOptions").set "scrapeOptions" v
  | none => d4

/-- The six legacy keys named by the specification's rename table. -/
def legacyKeys : List String :=
  ["includes", "excludes", "allowBackwardCrawling",
   "allowExternalContentLinks", "onlyIncludeTags", "removeTags"]

/-- The seven boolean format-flag keys consumed by `_prepare_scrape_options`. -/
def flagKeys : List String :=
  ["includeMarkdown", "includeHtml", "includeRawHtml", "includeExtract",
   "includeLinks", "screenshot", "fullPageScreenshot"]

/-- Truthiness of the flag stored under `key`, with `dflt` when absent:
the value `params.pop(key, dflt)` is tested on. -/
def flagTruthy (d : Dict) (key : String) (dflt : Bool) : Bool :=
  ((d.lookup key).getD (Value.vBool dflt)).truthy

/-- The Format Selector Set as the specification words it: the canonical
tokens, in the fixed priority order, of exactly the flags that hold
(`includeMarkdown` defaulting to true, every other flag to false). -/
def specDerivedFormats (d : Dict) : List String :=
  (if flagTruthy d "includeMarkdown" true then ["markdown"] else []) ++
  (if flagTruthy d "includeHtml" false then ["html"] else []) ++
  (if flagTruthy d "includeRawHtml" false then ["rawHtml"] else []) ++
  (if flagTruthy d "includeExtract" false then ["extract"] else []) ++
  (if flagTruthy d "includeLinks" false then ["links"] else []) ++
  (if flagTruthy d "screenshot" false then ["screenshot"] else []) ++
  (if flagTruthy d "fullPageScreenshot" false then ["screenshot@fullPage"] else [])

theorem formatsStep_snd (d : Dict) :
    (formatsStep d).2 =
      ((((((d.erase "includeMarkdown").erase "includeHtml").erase
        "includeRawHtml").erase "includeExtract").erase "includeLinks").erase
        "screenshot").erase "fullPageScreenshot" := rfl

theorem formatsStep_fst (d : Dict) :
    (formatsStep d).1 = specDerivedFormats d := by
  simp [formatsStep, popFlag, specDerivedFormats, flagTruthy, Dict.lookup_erase]

theorem formatsStep_snd_lookup_ne (d : Dict) (key : String)
    (h : key ∉ flagKeys) : (formatsStep d).2.lookup key = d.lookup key := by
  simp only [flagKeys, List.mem_cons, List.not_mem_nil, or_false, not_or] at h
  obtain ⟨n1, n2, n3, n4, n5, n6, n7⟩ := h
  rw [formatsStep_snd]
  simp [Dict.lookup_erase, n1, n2, n3, n4, n5, n6, n7]

theorem formatsStep_snd_lookup_flag (d : Dict) (key : String)
    (h : key ∈ flagKeys) : (formatsStep d).2.lookup key = none := by
  rw [formatsStep_snd]
  fin_cases h <;> simp [Dict.lookup_erase]

theorem extractorStep_lookup_ne (d : Dict) (key : String)
    (h1 : key ≠ "extractorOptions") (h2 : key ≠ "prompt")
    (h3 : key ≠ "schema") :
    (extractorStep d).lookup key = d.lookup key := by
  unfold extractorStep
  cases hx : d.lookup "extractorOptions" with
  | none => rfl
  | some v =>
    cases v with
    | vDict ex =>
      cases hp : Dict.lookup ex "extractionPrompt" <;>
        cases hs : Dict.lookup ex "extractionSchema" <;>
          cases hu : Dict.lookup ex "userPrompt" <;>
            simp [hp, hs, hu, Dict.lookup_set, Dict.lookup_erase, h1, h2, h3]
    | vNone => simp [Dict.lookup_erase, h1]
    | vStr s => simp [Dict.lookup_erase, h1]
    | vBool b => simp [Dict.lookup_erase, h1]
    | vInt n => simp [Dict.lookup_erase, h1]
    | vList xs => simp [Dict.lookup_erase, h1]

theorem specDerivedFormats_extractorStep (d : Dict) :
    specDerivedFormats (extractorStep d) = specDerivedFormats d := by
  unfold specDerivedFormats flagTruthy
  rw [extractorStep_lookup_ne d "includeMarkdown" (by decide) (by decide) (by decide),
    extractorStep_lookup_ne d "includeHtml" (by decide) (by decide) (by decide),
    extractorStep_lookup_ne d "includeRawHtml" (by decide) (by decide) (by decide),
    extractorStep_lookup_ne d "includeExtract" (by decide) (by decide) (by decide),
    extractorStep_lookup_ne d "includeLinks" (by decide) (by decide) (by decide),
    extractorStep_lookup_ne d "screenshot" (by decide) (by decide) (by decide),
    extractorStep_lookup_ne d "fullPageScreenshot" (by decide) (by decide) (by decide)]

theorem prepare_scrape_options_lookup_ne (d : Dict) (key : String)
    (h1 : key ∉ flagKeys) (h2 : key ≠ "extractorOptions") (h3 : key ≠ "prompt")
    (h4 : key ≠ "schema") (h5 : key ≠ "onlyIncludeTags")
    (h6 : key ≠ "includeTags") (h7 : key ≠ "removeTags")
    (h8 : key ≠ "excludeTags") (h9 : key ≠ "formats") :
    (prepare_scrape_options d).lookup key = d.lookup key := by
  have hd2 : (((formatsStep (extractorStep d)).2.rename "onlyIncludeTags"
      "includeTags").rename "removeTags" "excludeTags").lookup key
      = d.lookup key := by
    rw [Dict.lookup_rename_ne _ _ _ _ h7 h8, Dict.lookup_rename_ne _ _ _ _ h5 h6,
      formatsStep_snd_lookup_ne _ _ h1, extractorStep_lookup_ne _ _ h2 h3 h4]
  simp only [prepare_scrape_options]
  split_ifs <;> simp [Dict.lookup_set, h9, hd2]

theorem prepare_scrape_options_lookup_after_renames (d : Dict) (key : String)
    (h9 : key ≠ "formats") :
    (prepare_scrape_options d).lookup key =
      (((formatsStep (extractorStep d)).2.rename "onlyIncludeTags"
        "includeTags").rename "removeTags" "excludeTags").lookup key := by
  simp only [prepare_scrape_options]
  split_ifs <;> simp [Dict.lookup_set, h9]

theorem prepare_scrape_options_formats_absent (d : Dict)
    (h : d.lookup "formats" = none) :
    (prepare_scrape_options d).lookup "formats" =
      some (Value.vList ((if specDerivedFormats d = [] then ["markdown"]
        else specDerivedFormats d).map Value.vStr)) := by
  have hd2 : (((formatsStep (extractorStep d)).2.rename "onlyIncludeTags"
      "includeTags").rename "removeTags" "excludeTags").lookup "formats"
      = none := by
    rw [Dict.lookup_rename_ne _ _ _ _ (by decide) (by decide),
      Dict.lookup_rename_ne _ _ _ _ (by decide) (by decide),
      formatsStep_snd_lookup_ne _ _ (by decide),
      extractorStep_lookup_ne _ _ (by decide) (by decide) (by decide), h]
  simp only [prepare_scrape_options]
  rw [hd2]
  simp only [Option.isSome_none, Bool.false_eq_true, if_false,
    formatsStep_fst, specDerivedFormats_extractorStep]
  by_cases he : specDerivedFormats d = []
  · simp [he, Dict.lookup_set]
  · simp [he, Dict.lookup_set, List.isEmpty_eq_true]

theorem prepare_scrape_options_formats_present (d : Dict) (v : Value)
    (h : d.lookup "formats" = some v) :
    (prepare_scrape_options d).lookup "formats" = some v := by
  have hd2 : (((formatsStep (extractorStep d)).2.rename "onlyIncludeTags"
      "includeTags").rename "removeTags" "excludeTags").lookup "formats"
      = some v := by
    rw [Dict.lookup_rename_ne _ _ _ _ (by decide) (by decide),
      Dict.lookup_rename_ne _ _ _ _ (by decide) (by decide),
      formatsStep_snd_lookup_ne _ _ (by decide),
      extractorStep_lookup_ne _ _ (by decide) (by decide) (by decide), h]
  simp only [prepare_scrape_options]
  rw [hd2]
  simp [hd2]

/-- C1 counterexample: the claim that "normalization" removes every legacy
key fails at concrete inputs containing only legacy keys.  Crawl
normalization leaves `removeTags` untouched (no `excludeTags` appears), and
scrape normalization leaves `includes` untouched (no `includePaths`
appears), so neither normalization entry point performs all six renames. -/
theorem legacy_renames_single_pass_cx :
    (∀ kv ∈ ([("removeTags", Value.vStr "nav")] : Dict), kv.1 ∈ legacyKeys)
    ∧ (prepare_crawler_options
        [("removeTags", Value.vStr "nav")]).lookup "removeTags"
        = some (Value.vStr "nav")
    ∧ (prepare_crawler_options
        [("removeTags", Value.vStr "nav")]).lookup "excludeTags" = none
    ∧ (∀ kv ∈ ([("includes", Value.vStr "blog")] : Dict), kv.1 ∈ legacyKeys)
    ∧ (prepare_scrape_options
        [("includes", Value.vStr "blog")]).lookup "includes"
        = some (Value.vStr "blog")
    ∧ (prepare_scrape_options
        [("includes", Value.vStr "blog")]).lookup "includePaths" = none :=
  ⟨by decide, rfl, rfl, by decide, rfl, rfl⟩

/-- C1 (amended): on Configuration Maps containing only legacy keys, each
rename is a pure, independent key substitution — but the renames are split
between the two normalization entry points: `_prepare_crawler_options`
renames `includes`/`excludes`/`allowBackwardCrawling`/
`allowExternalContentLinks` and passes the two tag keys through, while
`_prepare_scrape_options` renames `onlyIncludeTags`/`removeTags` and passes
the four crawl-level keys through. -/
theorem legacy_renames_by_function (d : Dict)
    (h : ∀ kv ∈ d, kv.1 ∈ legacyKeys) :
    ((prepare_crawler_options d).lookup "includePaths" = d.lookup "includes"
      ∧ (prepare_crawler_options d).lookup "includes" = none
      ∧ (prepare_crawler_options d).lookup "excludePaths"
        = d.lookup "excludes"
      ∧ (prepare_crawler_options d).lookup "excludes" = none
      ∧ (prepare_crawler_options d).lookup "allowBackwardLinks"
        = d.lookup "allowBackwardCrawling"
      ∧ (prepare_crawler_options d).lookup "allowBackwardCrawling" = none
      ∧ (prepare_crawler_options d).lookup "allowExternalLinks"
        = d.lookup "allowExternalContentLinks"
      ∧ (prepare_crawler_options d).lookup "allowExternalContentLinks" = none
      ∧ (prepare_crawler_options d).lookup "onlyIncludeTags"
        = d.lookup "onlyIncludeTags"
      ∧ (prepare_crawler_options d).lookup "removeTags"
        = d.lookup "removeTags")
    ∧ ((prepare_scrape_options d).lookup "includeTags"
        = d.lookup "onlyIncludeTags"
      ∧ (prepare_scrape_options d).lookup "onlyIncludeTags" = none
      ∧ (prepare_scrape_options d).lookup "excludeTags"
        = d.lookup "removeTags"
      ∧ (prepare_scrape_options d).lookup "removeTags" = none
      ∧ (prepare_scrape_options d).lookup "includes" = d.lookup "includes"
      ∧ (prepare_scrape_options d).lookup "excludes" = d.lookup "excludes"
      ∧ (prepare_scrape_options d).lookup "allowBackwardCrawling"
        = d.lookup "allowBackwardCrawling"
      ∧ (prepare_scrape_options d).lookup "allowExternalContentLinks"
        = d.lookup "allowExternalContentLinks") := by
  have hmiss : ∀ key : String, key ∉ legacyKeys → d.lookup key = none :=
    fun key hk => Dict.lookup_eq_none_of_keys_subset d legacyKeys h key hk
  have hpco : prepare_crawler_options d
      = (((d.rename "includes" "includePaths").rename "excludes"
        "excludePaths").rename "allowBackwardCrawling"
        "allowBackwardLinks").rename "allowExternalContentLinks"
        "allowExternalLinks" := by
    have hpo : ((((d.rename "includes" "includePaths").rename "excludes"
        "excludePaths").rename "allowBackwardCrawling"
        "allowBackwardLinks").rename "allowExternalContentLinks"
        "allowExternalLinks").lookup "pageOptions" = none := by
      rw [Dict.lookup_rename_ne _ _ _ _ (by decide) (by decide),
        Dict.lookup_rename_ne _ _ _ _ (by decide) (by decide),
        Dict.lookup_rename_ne _ _ _ _ (by decide) (by decide),
        Dict.lookup_rename_ne _ _ _ _ (by decide) (by decide)]
      exact hmiss _ (by decide)
    simp only [prepare_crawler_options]
    rw [hpo]
  constructor
  · refine ⟨?_, ?_, ?_, ?_, ?_, ?_, ?_, ?_, ?_, ?_⟩
    · rw [hpco, Dict.lookup_rename_ne _ _ _ _ (by decide) (by decide),
        Dict.lookup_rename_ne _ _ _ _ (by decide) (by decide),
        Dict.lookup_rename_ne _ _ _ _ (by decide) (by decide),
        Dict.lookup_rename_new _ _ _ (hmiss _ (by decide))]
    · rw [hpco, Dict.lookup_rename_ne _ _ _ _ (by decide) (by decide),
        Dict.lookup_rename_ne _ _ _ _ (by decide) (by decide),
        Dict.lookup_rename_ne _ _ _ _ (by decide) (by decide),
        Dict.lookup_rename_old _ _ _ (by decide)]
    · have hx : (d.rename "includes" "includePaths").lookup "excludePaths"
          = none := by
        rw [Dict.lookup_rename_ne _ _ _ _ (by decide) (by decide)]
        exact hmiss _ (by decide)
      rw [hpco, Dict.lookup_rename_ne _ _ _ _ (by decide) (by decide),
        Dict.lookup_rename_ne _ _ _ _ (by decide) (by decide),
        Dict.lookup_rename_new _ _ _ hx,
        Dict.lookup_rename_ne _ _ _ _ (by decide) (by decide)]
    · rw [hpco, Dict.lookup_rename_ne _ _ _ _ (by decide) (by decide),
        Dict.lookup_rename_ne _ _ _ _ (by decide) (by decide),
        Dict.lookup_rename_old _ _ _ (by decide)]
    · have hx : ((d.rename "includes" "includePaths").rename "excludes"
          "excludePaths").lookup "allowBackwardLinks" = none := by
        rw [Dict.lookup_rename_ne _ _ _ _ (by decide) (by decide),
          Dict.lookup_rename_ne _ _ _ _ (by decide) (by decide)]
        exact hmiss _ (by decide)
      rw [hpco, Dict.lookup_rename_ne _ _ _ _ (by decide) (by decide),
        Dict.lookup_rename_new _ _ _ hx,
        Dict.lookup_rename_ne _ _ _ _ (by decide) (by decide),
        Dict.lookup_rename_ne _ _ _ _ (by decide) (by decide)]
    · rw [hpco, Dict.lookup_rename_ne _ _ _ _ (by decide) (by decide),
        Dict.lookup_rename_old _ _ _ (by decide)]
    · have hx : (((d.rename "includes" "includePaths").rename "excludes"
          "excludePaths").rename "allowBackwardCrawling"
          "allowBackwardLinks").lookup "allowExternalLinks" = none := by
        rw [Dict.lookup_rename_ne _ _ _ _ (by decide) (by decide),
          Dict.lookup_rename_ne _ _ _ _ (by decide) (by decide),
          Dict.lookup_rename_ne _ _ _ _ (by decide) (by decide)]
        exact hmiss _ (by decide)
      rw [hpco, Dict.lookup_rename_new _ _ _ hx,
        Dict.lookup_rename_ne _ _ _ _ (by decide) (by decide),
        Dict.lookup_rename_ne _ _ _ _ (by decide) (by decide),
        Dict.lookup_rename_ne _ _ _ _ (by decide) (by decide)]
    · rw [hpco, Dict.lookup_rename_old _ _ _ (by decide)]
    · rw [hpco, Dict.lookup_rename_ne _ _ _ _ (by decide) (by decide),
        Dict.lookup_rename_ne _ _ _ _ (by decide) (by decide),
        Dict.lookup_rename_ne _ _ _ _ (by decide) (by decide),
        Dict.lookup_rename_ne _ _ _ _ (by decide) (by decide)]
    · rw [hpco, Dict.lookup_rename_ne _ _ _ _ (by decide) (by decide),
        Dict.lookup_rename_ne _ _ _ _ (by decide) (by decide),
        Dict.lookup_rename_ne _ _ _ _ (by decide) (by decide),
        Dict.lookup_rename_ne _ _ _ _ (by decide) (by decide)]
  · have hP2 : ∀ key : String, key ∉ flagKeys → key ≠ "extractorOptions" →
        key ≠ "prompt" → key ≠ "schema" →
        (formatsStep (extractorStep d)).2.lookup key = d.lookup key := by
      intro key hk h2 h3 h4
      rw [formatsStep_snd_lookup_ne _ _ hk, extractorStep_lookup_ne _ _ h2 h3 h4]
    refine ⟨?_, ?_, ?_, ?_, ?_, ?_, ?_, ?_⟩
    · have hx : (formatsStep (extractorStep d)).2.lookup "includeTags"
          = none := by
        rw [hP2 _ (by decide) (by decide) (by decide) (by decide)]
        exact hmiss _ (by decide)
      rw [prepare_scrape_options_lookup_after_renames _ _ (by decide),
        Dict.lookup_rename_ne _ _ _ _ (by decide) (by decide),
        Dict.lookup_rename_new _ _ _ hx,
        hP2 _ (by decide) (by decide) (by decide) (by decide)]
    · rw [prepare_scrape_options_lookup_after_renames _ _ (by decide),
        Dict.lookup_rename_ne _ _ _ _ (by decide) (by decide),
        Dict.lookup_rename_old _ _ _ (by decide)]
    · have hx : ((formatsStep (extractorStep d)).2.rename "onlyIncludeTags"
          "includeTags").lookup "excludeTags" = none := by
        rw [Dict.lookup_rename_ne _ _ _ _ (by decide) (by decide),
          hP2 _ (by decide) (by decide) (by decide) (by decide)]
        exact hmiss _ (by decide)
      rw [prepare_scrape_options_lookup_after_renames _ _ (by decide),
        Dict.lookup_rename_new _ _ _ hx,
        Dict.lookup_rename_ne _ _ _ _ (by decide) (by decide),
        hP2 _ (by decide) (by decide) (by decide) (by decide)]
    · rw [prepare_scrape_options_lookup_after_renames _ _ (by decide),
        Dict.lookup_rename_old _ _ _ (by decide)]
    · exact prepare_scrape_options_lookup_ne d "includes" (by decide)
        (by decide) (by decide) (by decide) (by decide) (by decide)
        (by decide) (by decide) (by decide)
    · exact prepare_scrape_options_lookup_ne d "excludes" (by decide)
        (by decide) (by decide) (by decide) (by decide) (by decide)
        (by decide) (by decide) (by decide)
    · exact prepare_scrape_options_lookup_ne d "allowBackwardCrawling"
        (by decide) (by decide) (by decide) (by decide) (by decide)
        (by decide) (by decide) (by decide) (by decide)
    · exact prepare_scrape_options_lookup_ne d "allowExternalContentLinks"
        (by decide) (by decide) (by decide) (by decide) (by decide)
        (by decide) (by decide) (by decide) (by decide)

/-- C1 witness: the amended rename behaviour evaluated on a concrete map
holding one crawl-level and one tag-level legacy key. -/
theorem legacy_renames_by_function_witness :
    (∀ kv ∈ ([("includes", Value.vStr "a"), ("removeTags", Value.vStr "b")]
      : Dict), kv.1 ∈ legacyKeys)
    ∧ (prepare_crawler_options [("includes", Value.vStr "a"),
        ("removeTags", Value.vStr "b")]).lookup "includePaths"
        = some (Value.vStr "a")
    ∧ (prepare_scrape_options [("includes", Value.vStr "a"),
        ("removeTags", Value.vStr "b")]).lookup "excludeTags"
        = some (Value.vStr "b") :=
  ⟨by decide,
   (legacy_renames_by_function _ (by decide)).1.1,
   (legacy_renames_by_function _ (by decide)).2.2.2.1⟩

/-- `extractorOptions`, when present, carries a mapping — the typing the
source assumes (it probes the popped value with `in`). -/
def ExtractorWellFormed (d : Dict) : Prop :=
  ∀ v, d.lookup "extractorOptions" = some v → ∃ es, v = Value.vDict es

/-- C2: on a scrape-style map without an explicit `formats` key,
`_prepare_scrape_options` sets `formats` to the ordered tokens of the truthy
flags (`includeMarkdown` defaulting to true, the rest to false), defaulting
to the one-element list `markdown` when no flag holds, and consumes the flag
keys; a `formats` key already present is passed through untouched; the empty
map normalizes to exactly the one-binding map `formats` ↦ `markdown`. -/
theorem scrape_formats_derivation (d : Dict) (_hwf : ExtractorWellFormed d) :
    (d.lookup "formats" = none →
      (prepare_scrape_options d).lookup "formats" =
        some (Value.vList ((if specDerivedFormats d = [] then ["markdown"]
          else specDerivedFormats d).map Value.vStr))
      ∧ ∀ key ∈ flagKeys, (prepare_scrape_options d).lookup key = none)
    ∧ (∀ v, d.lookup "formats" = some v →
        (prepare_scrape_options d).lookup "formats" = some v)
    ∧ prepare_scrape_options []
        = [("formats", Value.vList [Value.vStr "markdown"])] := by
  refine ⟨fun h => ⟨prepare_scrape_options_formats_absent d h, ?_⟩,
    fun v hv => prepare_scrape_options_formats_present d v hv, rfl⟩
  intro key hk
  fin_cases hk <;>
    rw [prepare_scrape_options_lookup_after_renames _ _ (by decide),
      Dict.lookup_rename_ne _ _ _ _ (by decide) (by decide),
      Dict.lookup_rename_ne _ _ _ _ (by decide) (by decide),
      formatsStep_snd_lookup_flag _ _ (by decide)]

/-- C2 witness: the derivation evaluated on the specification's own example
map (`includeHtml` true, `includeMarkdown` explicitly false). -/
theorem scrape_formats_derivation_witness :
    ExtractorWellFormed [("includeHtml", Value.vBool true),
      ("includeMarkdown", Value.vBool false)]
    ∧ Dict.lookup [("includeHtml", Value.vBool true),
      ("includeMarkdown", Value.vBool false)] "formats" = none
    ∧ (prepare_scrape_options [("includeHtml", Value.vBool true),
        ("includeMarkdown", Value.vBool false)]).lookup "formats"
        = some (Value.vList [Value.vStr "html"]) := by
  have hwf : ExtractorWellFormed [("includeHtml", Value.vBool true),
      ("includeMarkdown", Value.vBool false)] :=
    fun v hv => Option.noConfusion hv
  exact ⟨hwf, rfl, ((scrape_formats_derivation _ hwf).1 rfl).1⟩

/-- C6: when `extractorOptions` carries both `extractionPrompt` and
`userPrompt`, normalization removes `extractorOptions` and the later
`userPrompt` assignment wins for the top-level `prompt` key;
`extractionSchema`, when present, is copied to a top-level `schema` key. -/
theorem extractor_userPrompt_overwrites (d ex : Dict) (pu : Value)
    (hex : d.lookup "extractorOptions" = some (Value.vDict ex))
    (hpE : ∃ pe, Dict.lookup ex "extractionPrompt" = some pe)
    (hpU : Dict.lookup ex "userPrompt" = some pu) :
    (prepare_scrape_options d).lookup "prompt" = some pu
    ∧ (prepare_scrape_options d).lookup "extractorOptions" = none
    ∧ (∀ s, Dict.lookup ex "extractionSchema" = some s →
        (prepare_scrape_options d).lookup "schema" = some s) := by
  obtain ⟨pe, hpe⟩ := hpE
  have hprompt : (extractorStep d).lookup "prompt" = some pu := by
    unfold extractorStep
    simp only [hex, hpe, hpU]
    cases hs : Dict.lookup ex "extractionSchema" <;> simp [Dict.lookup_set]
  have hxo : (extractorStep d).lookup "extractorOptions" = none := by
    unfold extractorStep
    simp only [hex, hpe, hpU]
    cases hs : Dict.lookup ex "extractionSchema" <;>
      simp [Dict.lookup_set, Dict.lookup_erase]
  refine ⟨?_, ?_, ?_⟩
  · rw [prepare_scrape_options_lookup_after_renames _ _ (by decide),
      Dict.lookup_rename_ne _ _ _ _ (by decide) (by decide),
      Dict.lookup_rename_ne _ _ _ _ (by decide) (by decide),
      formatsStep_snd_lookup_ne _ _ (by decide), hprompt]
  · rw [prepare_scrape_options_lookup_after_renames _ _ (by decide),
      Dict.lookup_rename_ne _ _ _ _ (by decide) (by decide),
      Dict.lookup_rename_ne _ _ _ _ (by decide) (by decide),
      formatsStep_snd_lookup_ne _ _ (by decide), hxo]
  · intro s hs
    have hsc : (extractorStep d).lookup "schema" = some s := by
      unfold extractorStep
      simp only [hex, hpe, hpU, hs]
      simp [Dict.lookup_set]
    rw [prepare_scrape_options_lookup_after_renames _ _ (by decide),
      Dict.lookup_rename_ne _ _ _ _ (by decide) (by decide),
      Dict.lookup_rename_ne _ _ _ _ (by decide) (by decide),
      formatsStep_snd_lookup_ne _ _ (by decide), hsc]

/-- C6 witness: both prompts and a schema present; `userPrompt` wins. -/
theorem extractor_userPrompt_overwrites_witness :
    Dict.lookup [("extractorOptions", Value.vDict
        [("extractionPrompt", Value.vStr "p1"),
         ("extractionSchema", Value.vStr "s1"),
         ("userPrompt", Value.vStr "p2")])] "extractorOptions"
      = some (Value.vDict [("extractionPrompt", Value.vStr "p1"),
        ("extractionSchema", Value.vStr "s1"),
        ("userPrompt", Value.vStr "p2")])
    ∧ (prepare_scrape_options [("extractorOptions", Value.vDict
        [("extractionPrompt", Value.vStr "p1"),
         ("extractionSchema", Value.vStr "s1"),
         ("userPrompt", Value.vStr "p2")])]).lookup "prompt"
      = some (Value.vStr "p2")
    ∧ (prepare_scrape_options [("extractorOptions", Value.vDict
        [("extractionPrompt", Value.vStr "p1"),
         ("extractionSchema", Value.vStr "s1"),
         ("userPrompt", Value.vStr "p2")])]).lookup "schema"
      = some (Value.vStr "s1") := by
  have h := extractor_userPrompt_overwrites
    [("extractorOptions", Value.vDict
      [("extractionPrompt", Value.vStr "p1"),
       ("extractionSchema", Value.vStr "s1"),
       ("userPrompt", Value.vStr "p2")])]
    [("extractionPrompt", Value.vStr "p1"),
     ("extractionSchema", Value.vStr "s1"),
     ("userPrompt", Value.vStr "p2")]
    (Value.vStr "p2") rfl ⟨Value.vStr "p1", rfl⟩ rfl
  exact ⟨rfl, h.1, h.2.2 (Value.vStr "s1") rfl⟩

/-!
The response-projection loop at the end of `FireCrawlLoader.lazy_load`.
-/

/-- A content-bearing Response Record as `lazy_load` probes it with
`getattr(doc, field, None)`: each content field is either absent/`None`
(`none`) or a string; `metadata` is either absent/`None` (`none`) or a
mapping. -/
structure ResponseRecord where
  markdown : Option String
  html : Option String
  rawHtml : Option String
  metadata : Option Dict

/-- Python `a or b` on an optional string against a fallback: a present,
non-empty string wins, otherwise the fallback. -/
def pyOrStr (a : Option String) (b : String) : String :=
  match a with
  | some s => if s = "" then b else s
  | none => b

/-- `getattr(doc, "markdown", None) or getattr(doc, "html", None) or
getattr(doc, "rawHtml", None) or ""`. -/
def pageContentOf (r : ResponseRecord) : String :=
  pyOrStr r.markdown (pyOrStr r.html (pyOrStr r.rawHtml ""))

/-- `getattr(doc, "metadata", {}) or {}`: an absent or `None` (or empty)
metadata field becomes the empty mapping. -/
def metadataOf (r : ResponseRecord) : Dict :=
  r.metadata.getD []

/-- One iteration of the projection loop: records without content are
skipped (`continue`), others yield a `(page_content, metadata)` document. -/
def projectRecord (r : ResponseRecord) : Option (String × Dict) :=
  if pageContentOf r = "" then none
  else some (pageContentOf r, metadataOf r)

/-- The whole projection loop over the collaborator's record sequence. -/
def projectRecords (rs : List ResponseRecord) : List (String × Dict) :=
  rs.filterMap projectRecord

/-- An optional content field that is absent, `None`, or the empty string —
i.e. not "present and non-empty". -/
def OptBlank (o : Option String) : Prop := o = none ∨ o = some ""

/-- C4: the projector emits the first present-and-non-empty content field in
the order markdown, html, rawHtml, paired with the record's metadata (empty
when absent); a record with no present-and-non-empty content field is
skipped and contributes nothing to the output sequence. -/
theorem projector_priority_order (r : ResponseRecord) :
    (∀ s : String, r.markdown = some s → s ≠ "" →
      projectRecord r = some (s, metadataOf r))
    ∧ (OptBlank r.markdown → ∀ s : String, r.html = some s → s ≠ "" →
      projectRecord r = some (s, metadataOf r))
    ∧ (OptBlank r.markdown → OptBlank r.html → ∀ s : String,
      r.rawHtml = some s → s ≠ "" → projectRecord r = some (s, metadataOf r))
    ∧ (OptBlank r.markdown → OptBlank r.html → OptBlank r.rawHtml →
      projectRecord r = none
      ∧ ∀ pre post : List ResponseRecord,
        projectRecords (pre ++ r :: post)
          = projectRecords pre ++ projectRecords post) := by
  refine ⟨?_, ?_, ?_, ?_⟩
  · intro s hm hs
    simp [projectRecord, pageContentOf, pyOrStr, hm, hs]
  · rintro (hm | hm) s hh hs <;>
      simp [projectRecord, pageContentOf, pyOrStr, hm, hh, hs]
  · rintro (hm | hm) (hh | hh) s hr hs <;>
      simp [projectRecord, pageContentOf, pyOrStr, hm, hh, hr, hs]
  · intro hm hh hr
    have hnone : projectRecord r = none := by
      rcases hm with hm | hm <;> rcases hh with hh | hh <;>
        rcases hr with hr | hr <;>
          simp [projectRecord, pageContentOf, pyOrStr, hm, hh, hr]
    refine ⟨hnone, fun pre post => ?_⟩
    simp [projectRecords, List.filterMap_append, List.filterMap_cons, hnone]

/-- C4 witness: the priority order and the skip behaviour evaluated on
concrete records (markdown wins; empty markdown falls through to html;
only rawHtml present; all blank — record dropped from the batch). -/
theorem projector_priority_order_witness :
    projectRecord ⟨some "m", some "h", some "r", some [("t", Value.vStr "u")]⟩
      = some ("m", [("t", Value.vStr "u")])
    ∧ projectRecord ⟨some "", some "h", some "r", none⟩ = some ("h", [])
    ∧ projectRecord ⟨none, some "", some "r", none⟩ = some ("r", [])
    ∧ projectRecord ⟨some "", none, some "", none⟩ = none
    ∧ projectRecords [⟨some "m", none, none, none⟩,
        ⟨some "", none, some "", none⟩]
      = [("m", [])] :=
  ⟨(projector_priority_order _).1 "m" rfl (by decide),
   (projector_priority_order _).2.1 (Or.inr rfl) "h" rfl (by decide),
   (projector_priority_order _).2.2.1 (Or.inl rfl) (Or.inr rfl) "r" rfl
     (by decide),
   ((projector_priority_order _).2.2.2 (Or.inr rfl) (Or.inl rfl)
     (Or.inr rfl)).1,
   ((projector_priority_order _).2.2.2 (Or.inr rfl) (Or.inl rfl)
     (Or.inr rfl)).2 [⟨some "m", none, none, none⟩] []⟩

/-!
The `search` and `crawl` branches of `FireCrawlLoader.lazy_load`.
-/

/-- Python call construction with an explicit keyword argument list and a
`**star` expansion: if any key of `star` collides with an explicit keyword,
the call raises `TypeError: got multiple values for keyword argument`
before the callee runs. -/
def expandCallKwargs (explicit : Dict) (star : Dict) : Except String Dict :=
  if star.any (fun kv => (explicit.lookup kv.1).isSome) then
    Except.error "got multiple values for keyword argument"
  else Except.ok (explicit ++ star)

/-- The keyword arguments of the `search` branch:
`self.firecrawl.search(query=self.params.get("query"), **self.params)`. -/
def searchCallKwargs (params : Dict) : Except String Dict :=
  expandCallKwargs [("query", (params.lookup "query").getD Value.vNone)] params

/-- The `search` branch of `lazy_load`, parametric in the remote
collaborator `search` operation: the call is only made (and its records
projected) if the keyword expansion succeeds. -/
def lazyLoadSearch (search : Dict → List ResponseRecord) (params : Dict) :
    Except String (List (String × Dict)) :=
  (searchCallKwargs params).map (fun kw => projectRecords (search kw))

/-- C9: whenever `params` itself contains a `query` key, the `search`
branch fails with a duplicate-keyword-argument error before any remote
search runs — uniformly in the collaborator's behaviour. -/
theorem search_query_duplicate_keyword (params : Dict) (v : Value)
    (h : params.lookup "query" = some v) :
    ∀ search : Dict → List ResponseRecord,
      lazyLoadSearch search params
        = Except.error "got multiple values for keyword argument" := by
  intro search
  have hmem : ∃ kv ∈ params, kv.1 = "query" := by
    induction params with
    | nil => exact absurd h (by simp [Dict.lookup])
    | cons kv rest ih =>
      obtain ⟨k1, v1⟩ := kv
      by_cases hk : k1 = "query"
      · exact ⟨(k1, v1), List.mem_cons_self _ _, hk⟩
      · simp only [Dict.lookup, if_neg hk] at h
        obtain ⟨kv, hkv, hq⟩ := ih h
        exact ⟨kv, List.mem_cons_of_mem _ hkv, hq⟩
  have hany : params.any
      (fun kv => (Dict.lookup
        [("query", (params.lookup "query").getD Value.vNone)]
        kv.1).isSome) = true := by
    obtain ⟨kv, hkv, hq⟩ := hmem
    refine List.any_eq_true.mpr ⟨kv, hkv, ?_⟩
    rw [hq]
    rfl
  simp [lazyLoadSearch, searchCallKwargs, expandCallKwargs, hany,
    Except.map]

/-- C9 witness: a params map carrying `query` makes the search branch
error out for an arbitrary concrete collaborator. -/
theorem search_query_duplicate_keyword_witness :
    Dict.lookup [("query", Value.vStr "web"), ("limit", Value.vInt 3)]
      "query" = some (Value.vStr "web")
    ∧ lazyLoadSearch (fun _ => [])
        [("query", Value.vStr "web"), ("limit", Value.vInt 3)]
      = Except.error "got multiple values for keyword argument" :=
  ⟨rfl, search_query_duplicate_keyword
    [("query", Value.vStr "web"), ("limit", Value.vInt 3)]
    (Value.vStr "web") rfl (fun _ => [])⟩

/-- The `crawl` branch's response handling:
`crawl_response.get("data", [])`.  The model restricts the response mapping
to record-list fields, which suffices for the presence/absence of `data`:
any string key maps to a list of Response Records. -/
def crawlResponseData (resp : List (String × List ResponseRecord)) :
    List ResponseRecord :=
  match resp.lookup "data" with
  | some rs => rs
  | none => []

/-- The tail of the `crawl` branch of `lazy_load`: the defaulted record
list is projected to documents.  Total — no exception path exists once the
remote call has returned. -/
def lazyLoadCrawlDocs (resp : List (String × List ResponseRecord)) :
    List (String × Dict) :=
  projectRecords (crawlResponseData resp)

/-- C10: a crawl response mapping without a `data` key yields the empty
document sequence — the missing field defaults silently to no records. -/
theorem crawl_missing_data_yields_empty
    (resp : List (String × List ResponseRecord))
    (h : resp.lookup "data" = none) : lazyLoadCrawlDocs resp = [] := by
  simp [lazyLoadCrawlDocs, crawlResponseData, h, projectRecords]

/-- C10 witness: a response carrying only a `success`-style field. -/
theorem crawl_missing_data_yields_empty_witness :
    ([("status", ([] : List ResponseRecord))].lookup "data"
      = (none : Option (List ResponseRecord)))
    ∧ lazyLoadCrawlDocs [("status", [])] = [] :=
  ⟨rfl, crawl_missing_data_yields_empty _ rfl⟩

/-!
A heap-accurate model of `lazy_load`'s crawl-mode normalization call
`self._prepare_crawler_options(self.params.copy())`.  In CPython a mapping
stored inside another mapping is a reference to a separate heap object, and
`dict.copy()` is shallow: the copy shares every nested object with the
original.  The model makes the heap explicit: `PVal.pref` is a reference
into a store of dict objects, and the normalization functions mutate the
dict object they are handed, exactly as the in-place `params.pop`/
`params[...] = ...` statements of the source do.
-/

/-- A Python value as the heap sees it: mappings never appear inline, only
as references (`pref`) to objects in the store. -/
inductive PVal where
  | pnone
  | pstr (s : String)
  | pbool (b : Bool)
  | pint (n : Int)
  | plist (xs : List PVal)
  | pref (addr : Nat)

/-- The entry list of one heap-allocated dict object. -/
abbrev PDict := List (String × PVal)

/-- The object store: dict contents indexed by address. -/
abbrev Store := List (Nat × PDict)

def PDict.lookup : PDict → String → Option PVal
  | [], _ => none
  | (k, v) :: rest, key => if k = key then some v else PDict.lookup rest key

def PDict.erase : PDict → String → PDict
  | [], _ => []
  | (k, v) :: rest, key =>
      if k = key then PDict.erase rest key else (k, v) :: PDict.erase rest key

def PDict.set : PDict → String → PVal → PDict
  | [], key, v => [(key, v)]
  | (k, w) :: rest, key, v =>
      if k = key then (key, v) :: rest else (k, w) :: PDict.set rest key v

def PDict.rename (d : PDict) (oldKey newKey : String) : PDict :=
  match PDict.lookup d oldKey with
  | some v => PDict.set (PDict.erase d oldKey) newKey v
  | none => d

def Store.getDict : Store → Nat → PDict
  | [], _ => []
  | (a, d) :: rest, addr => if a = addr then d else Store.getDict rest addr

def Store.setDict : Store → Nat → PDict → Store
  | [], addr, d => [(addr, d)]
  | (a, e) :: rest, addr, d =>
      if a = addr then (addr, d) :: rest
      else (a, e) :: Store.setDict rest addr d

/-- Python truthiness against the store (a referenced dict is truthy iff
the object it points to is non-empty). -/
def PVal.truthy (st : Store) : PVal → Bool
  | pnone => false
  | pstr s => !(s == "")
  | pbool b => b
  | pint n => !(n == 0)
  | plist xs => !xs.isEmpty
  | pref a => !(Store.getDict st a).isEmpty

/-- The `extractorOptions` block of `_prepare_scrape_options`, mutating the
dict object at address `a` (the popped extractor mapping is only read). -/
def extractorStepSt (st : Store) (a : Nat) : Store :=
  let d := Store.getDict st a
  match PDict.lookup d "extractorOptions" with
  | some (PVal.pref e) =>
      let ex := Store.getDict st e
      let d1 := PDict.erase d "extractorOptions"
      let d2 := match PDict.lookup ex "extractionPrompt" with
        | some v => PDict.set d1 "prompt" v
        | none => d1
      let d3 := match PDict.lookup ex "extractionSchema" with
        | some v => PDict.set d2 "schema" v
        | none => d2
      let d4 := match PDict.lookup ex "userPrompt" with
        | some v => PDict.set d3 "prompt" v
        | none => d3
      Store.setDict st a d4
  | some _ => Store.setDict st a (PDict.erase d "extractorOptions")
  | none => st

/-- `params.pop(key, dflt)` with truthiness test, on a dict entry list. -/
def popFlagSt (st : Store) (d : PDict) (key : String) (dflt : Bool) :
    Bool × PDict :=
  (((PDict.lookup d key).getD (PVal.pbool dflt)).truthy st, PDict.erase d key)

/-- The format-flag section of `_prepare_scrape_options` on the heap. -/
def formatsStepSt (st : Store) (d : PDict) : List String × PDict :=
  let p1 := popFlagSt st d "includeMarkdown" true
  let fs := if p1.1 then ["markdown"] else []
  let p2 := popFlagSt st p1.2 "includeHtml" false
  let fs := fs ++ if p2.1 then ["html"] else []
  let p3 := popFlagSt st p2.2 "includeRawHtml" false
  let fs := fs ++ if p3.1 then ["rawHtml"] else []
  let p4 := popFlagSt st p3.2 "includeExtract" false
  let fs := fs ++ if p4.1 then ["extract"] else []
  let p5 := popFlagSt st p4.2 "includeLinks" false
  let fs := fs ++ if p5.1 then ["links"] else []
  let p6 := popFlagSt st p5.2 "screenshot" false
  let fs := fs ++ if p6.1 then ["screenshot"] else []
  let p7 := popFlagSt st p6.2 "fullPageScreenshot" false
  let fs := fs ++ if p7.1 then ["screenshot@fullPage"] else []
  (fs, p7.2)

/-- `_prepare_scrape_options` on the heap: mutates the dict object at `a`
in place and (in the source) returns that same object. -/
def prepare_scrape_options_st (st : Store) (a : Nat) : Store :=
  let st1 := extractorStepSt st a
  let p := formatsStepSt st1 (Store.getDict st1 a)
  let d2 := PDict.rename (PDict.rename p.2 "onlyIncludeTags" "includeTags")
    "removeTags" "excludeTags"
  let d3 :=
    if (PDict.lookup d2 "formats").isSome then d2
    else if !p.1.isEmpty then
      PDict.set d2 "formats" (PVal.plist (p.1.map PVal.pstr))
    else PDict.set d2 "formats" (PVal.plist [PVal.pstr "markdown"])
  Store.setDict st1 a d3

/-- `_prepare_crawler_options` on the heap: the four renames mutate the
dict at `a`; the `pageOptions` branch pops the nested reference, runs the
scrape normalization on the referenced object in place, and stores the very
same reference back under `scrapeOptions`. -/
def prepare_crawler_options_st (st : Store) (a : Nat) : Store :=
  let d := Store.getDict st a
  let d4 := PDict.rename (PDict.rename (PDict.rename (PDict.rename d
    "includes" "includePaths") "excludes" "excludePaths")
    "allowBackwardCrawling" "allowBackwardLinks")
    "allowExternalContentLinks" "allowExternalLinks"
  match PDict.lookup d4 "pageOptions" with
  | some (PVal.pref po) =>
      let st1 := Store.setDict st a (PDict.erase d4 "pageOptions")
      let st2 := prepare_scrape_options_st st1 po
      Store.setDict st2 a
        (PDict.set (Store.getDict st2 a) "scrapeOptions" (PVal.pref po))
  | some v =>
      Store.setDict st a (PDict.set (PDict.erase d4 "pageOptions")
        "scrapeOptions" v)
  | none => Store.setDict st a d4

/-- The crawl branch's normalization call, heap view:
`self._prepare_crawler_options(self.params.copy())`.  `dict.copy()`
allocates a fresh object (`copyAddr`) with the same entry list — a shallow
copy sharing every referenced sub-object with the caller's dict. -/
def lazyLoadCrawlNormalize (st : Store) (paramsAddr copyAddr : Nat) :
    Store :=
  let st1 := Store.setDict st copyAddr (Store.getDict st paramsAddr)
  prepare_crawler_options_st st1 copyAddr

/-- C3: the defensive copy is shallow, so crawl-mode normalization of
`params = ⟨pageOptions ↦ ⟨includeHtml ↦ true⟩⟩` leaves the caller's
top-level dict (address 0) unchanged but rewrites the caller's nested
`pageOptions` dict (address 1) in place: its flag is popped and a `formats`
list appears, contradicting "the original map (at every depth) is
unchanged". -/
theorem lazy_load_crawl_mutates_nested_pageOptions :
    Store.getDict [(0, [("pageOptions", PVal.pref 1)]),
      (1, [("includeHtml", PVal.pbool true)])] 1
      = [("includeHtml", PVal.pbool true)]
    ∧ Store.getDict (lazyLoadCrawlNormalize
        [(0, [("pageOptions", PVal.pref 1)]),
         (1, [("includeHtml", PVal.pbool true)])] 0 2) 0
      = [("pageOptions", PVal.pref 1)]
    ∧ Store.getDict (lazyLoadCrawlNormalize
        [(0, [("pageOptions", PVal.pref 1)]),
         (1, [("includeHtml", PVal.pbool true)])] 0 2) 1
      = [("formats", PVal.plist [PVal.pstr "markdown", PVal.pstr "html"])]
    ∧ PDict.lookup (Store.getDict (lazyLoadCrawlNormalize
        [(0, [("pageOptions", PVal.pref 1)]),
         (1, [("includeHtml", PVal.pbool true)])] 0 2) 1) "includeHtml"
      = none
    ∧ Store.getDict (lazyLoadCrawlNormalize
        [(0, [("pageOptions", PVal.pref 1)]),
         (1, [("includeHtml", PVal.pbool true)])] 0 2) 2
      = [("scrapeOptions", PVal.pref 1)] :=
  ⟨rfl, rfl, rfl, rfl, rfl⟩

theorem Dict.lookup_append (d1 d2 : Dict) (key : String) :
    Dict.lookup (d1 ++ d2) key =
      match Dict.lookup d1 key with
      | some v => some v
      | none => Dict.lookup d2 key := by
  induction d1 with
  | nil => simp [Dict.lookup]
  | cons kv rest ih =>
    obtain ⟨k1, v1⟩ := kv
    by_cases h : k1 = key <;> simp [Dict.lookup, h, ih]

theorem Dict.lookup_filter_key (d : Dict) (p : String → Bool) (key : String) :
    Dict.lookup (d.filter (fun kv => p kv.1)) key
      = if p key then Dict.lookup d key else none := by
  induction d with
  | nil => simp [Dict.lookup]
  | cons kv rest ih =>
    obtain ⟨k1, v1⟩ := kv
    by_cases hp : p k1 <;> by_cases hk : k1 = key
    · subst hk
      simp [List.filter_cons, hp, Dict.lookup]
    · simp [List.filter_cons, hp, hk, Dict.lookup, ih]
    · subst hk
      simp [List.filter_cons, hp, Dict.lookup, ih]
    · simp [List.filter_cons, hp, hk, Dict.lookup, ih]

/-!
The DALL-E image-generation wrapper.  The module
`langchain_community/utilities/dalle_image_generator.py` is not among the
sources — only its unit tests
(`tests/unit_tests/utilities/test_dalle_image_generator.py`) are — so the
wrapper is modelled from the specification and checked against the
behaviour the tests pin down.
-/

/-- Modelled from the spec: the keyword parameters the Model-Conditional
Request Builder explicitly recognizes (the named parameters the unit tests
exercise on `DallEAPIWrapper`); everything else is redirected to the
Extension Map. -/
def dalleRecognizedKeys : List String :=
  ["api_key", "model", "n", "size", "quality", "separator"]

/-- The constructed wrapper state: the recognized generation parameters
plus the Extension Map (`model_kwargs`). -/
structure DallEWrapperConfig where
  model : String
  n : Int
  size : String
  quality : String
  separator : String
  model_kwargs : Dict

/-- A recognized string parameter with its default. -/
def strParam (kwargs : Dict) (key : String) (dflt : String) : String :=
  match Dict.lookup kwargs key with
  | some (Value.vStr s) => s
  | _ => dflt

/-- A recognized integer parameter with its default. -/
def intParam (kwargs : Dict) (key : String) (dflt : Int) : Int :=
  match Dict.lookup kwargs key with
  | some (Value.vInt n) => n
  | _ => dflt

/-- Modelled from the spec: `DallEAPIWrapper` construction.  Missing
credentials (no key supplied and none in the environment, collapsed here
into the `apiKey` option) fail at construction time; any keyword the
builder does not recognize is moved into the Extension Map rather than
raising; recognized keywords fill their fields, with the defaults the unit
tests rely on (`model` `dall-e-2`, `n` 1, `size` 1024x1024, `quality`
standard, `separator` comma). -/
def buildDallEWrapper (apiKey : Option String) (kwargs : Dict) :
    Except String DallEWrapperConfig :=
  match apiKey with
  | none => Except.error "Did not find openai_api_key"
  | some _ => Except.ok
      { model := strParam kwargs "model" "dall-e-2"
        n := intParam kwargs "n" 1
        size := strParam kwargs "size" "1024x1024"
        quality := strParam kwargs "quality" "standard"
        separator := strParam kwargs "separator" ","
        model_kwargs := kwargs.filter
          (fun kv => !(decide (kv.1 ∈ dalleRecognizedKeys))) }

/-- Modelled from the spec: the Model-Conditional Request Builder — the
keyword arguments of the outgoing `images.generate` call.  `quality` is
included iff the model identifier is exactly the newer-tier identifier
`dall-e-3` (for `dall-e-2` it is always omitted), and the Extension Map is
merged into the call. -/
def dalleGenerateKwargs (cfg : DallEWrapperConfig) (prompt : String) :
    Dict :=
  let base := [("prompt", Value.vStr prompt), ("n", Value.vInt cfg.n),
    ("size", Value.vStr cfg.size), ("model", Value.vStr cfg.model)]
  let base := if cfg.model = "dall-e-3" then
    base ++ [("quality", Value.vStr cfg.quality)] else base
  base ++ cfg.model_kwargs

/-- C5: the outgoing call carries `quality` iff the model identifier is an
exact match for `dall-e-3`; for `dall-e-2` it is omitted regardless of the
supplied quality value (the Extension Map is assumed not to smuggle a
`quality` key, as when the caller passed it as the declared parameter). -/
theorem quality_iff_dalle3 (cfg : DallEWrapperConfig) (prompt : String)
    (hmk : Dict.lookup cfg.model_kwargs "quality" = none) :
    (((dalleGenerateKwargs cfg prompt).lookup "quality").isSome
      ↔ cfg.model = "dall-e-3")
    ∧ (cfg.model = "dall-e-3" →
      (dalleGenerateKwargs cfg prompt).lookup "quality"
        = some (Value.vStr cfg.quality))
    ∧ (cfg.model = "dall-e-2" →
      (dalleGenerateKwargs cfg prompt).lookup "quality" = none) := by
  by_cases hm : cfg.model = "dall-e-3"
  · refine ⟨?_, fun _ => ?_, fun h2 => absurd (h2 ▸ hm) (by decide)⟩ <;>
      simp [dalleGenerateKwargs, hm, Dict.lookup_append, Dict.lookup]
  · have hq : (dalleGenerateKwargs cfg prompt).lookup "quality" = none := by
      simp [dalleGenerateKwargs, hm, Dict.lookup_append, Dict.lookup, hmk]
    refine ⟨?_, fun h3 => absurd h3 hm, fun _ => hq⟩
    simp [hq, hm]

/-- C5 witness: the builder evaluated at both tiers with quality `hd`. -/
theorem quality_iff_dalle3_witness :
    Dict.lookup (DallEWrapperConfig.mk "dall-e-3" 1 "1024x1024" "hd" ","
      []).model_kwargs "quality" = none
    ∧ (dalleGenerateKwargs
        (DallEWrapperConfig.mk "dall-e-3" 1 "1024x1024" "hd" "," [])
        "a pixel art style photo of a dog").lookup "quality"
      = some (Value.vStr "hd")
    ∧ (dalleGenerateKwargs
        (DallEWrapperConfig.mk "dall-e-2" 1 "1024x1024" "hd" "," [])
        "a renaissance style photo of a cat").lookup "quality" = none :=
  ⟨rfl,
   (quality_iff_dalle3 (DallEWrapperConfig.mk "dall-e-3" 1 "1024x1024" "hd"
     "," []) "a pixel art style photo of a dog" rfl).2.1 rfl,
   (quality_iff_dalle3 (DallEWrapperConfig.mk "dall-e-2" 1 "1024x1024" "hd"
     "," []) "a renaissance style photo of a cat" rfl).2.2 rfl⟩

/-- C7: a keyword the builder does not recognize never fails construction:
it lands in the Extension Map with its value intact, and (when it does not
collide with the call's own named parameters) is merged into the outgoing
remote call. -/
theorem unrecognized_kwarg_into_extension_map (apiKey : String)
    (kwargs : Dict) (key : String) (v : Value) (prompt : String)
    (hk : key ∉ dalleRecognizedKeys) (hv : Dict.lookup kwargs key = some v) :
    ∃ cfg : DallEWrapperConfig,
      buildDallEWrapper (some apiKey) kwargs = Except.ok cfg
      ∧ Dict.lookup cfg.model_kwargs key = some v
      ∧ (key ∉ ["prompt", "n", "size", "model", "quality"] →
        Dict.lookup (dalleGenerateKwargs cfg prompt) key = some v) := by
  have hmk : Dict.lookup (List.filter
      (fun kv => !(decide (kv.1 ∈ dalleRecognizedKeys))) kwargs) key
      = some v := by
    rw [Dict.lookup_filter_key kwargs
      (fun k => !(decide (k ∈ dalleRecognizedKeys))) key]
    simp [hk, hv]
  refine ⟨_, rfl, hmk, ?_⟩
  intro hnc
  simp only [List.mem_cons, List.not_mem_nil, or_false, not_or] at hnc
  obtain ⟨n1, n2, n3, n4, n5⟩ := hnc
  by_cases hm : strParam kwargs "model" "dall-e-2" = "dall-e-3" <;>
    simp [dalleGenerateKwargs, buildDallEWrapper, hm, Dict.lookup_append,
      Dict.lookup, Ne.symm n1, Ne.symm n2, Ne.symm n3, Ne.symm n4,
      Ne.symm n5, hmk]

/-- C7 witness: `foo = "bar"` is unrecognized, lands in `model_kwargs`, and
rides into the outgoing call. -/
theorem unrecognized_kwarg_into_extension_map_witness :
    "foo" ∉ dalleRecognizedKeys
    ∧ Dict.lookup [("foo", Value.vStr "bar")] "foo" = some (Value.vStr "bar")
    ∧ ∃ cfg : DallEWrapperConfig,
      buildDallEWrapper (some "sk-test") [("foo", Value.vStr "bar")]
        = Except.ok cfg
      ∧ Dict.lookup cfg.model_kwargs "foo" = some (Value.vStr "bar")
      ∧ ("foo" ∉ ["prompt", "n", "size", "model", "quality"] →
        Dict.lookup (dalleGenerateKwargs cfg "test image") "foo"
          = some (Value.vStr "bar")) :=
  ⟨by decide, rfl,
   unrecognized_kwarg_into_extension_map "sk-test"
     [("foo", Value.vStr "bar")] "foo" (Value.vStr "bar") "test image"
     (by decide) rfl⟩

/-- Modelled from the spec: `separator.join(urls)` — the URLs in
collaborator-reported order, separated by `sep`. -/
def joinWith (sep : String) : List String → String
  | [] => ""
  | [u] => u
  | u :: rest => u ++ sep ++ joinWith sep rest

/-- The default separator of the generation wrapper. -/
def dalleDefaultSeparator : String := ","

/-- Modelled from the spec: the generation wrapper's run output — the
collaborator's image URLs joined in reported order by the configured
separator, or the literal marker `No image was generated` when the
collaborator reports zero URLs. -/
def dalleRunOutput (separator : String) (urls : List String) : String :=
  if urls.isEmpty then "No image was generated"
  else joinWith separator urls

/-- C8: the wrapper returns the separator-joined URLs in reported order
(`n = 2` giving exactly the two URLs around one separator), the default
separator being the comma, and the literal marker on zero URLs. -/
theorem run_joins_urls_or_marker (sep : String) (urls : List String) :
    (urls = [] → dalleRunOutput sep urls = "No image was generated")
    ∧ (urls ≠ [] → dalleRunOutput sep urls = joinWith sep urls)
    ∧ (∀ u1 u2 : String, dalleRunOutput sep [u1, u2] = u1 ++ sep ++ u2)
    ∧ dalleDefaultSeparator = "," := by
  refine ⟨fun h => by simp [dalleRunOutput, h], fun h => ?_,
    fun u1 u2 => rfl, rfl⟩
  simp [dalleRunOutput, List.isEmpty_eq_true, h]

/-- C8 witness: the unit tests' two-URL run with separator bar, and the
zero-URL marker. -/
theorem run_joins_urls_or_marker_witness :
    dalleRunOutput "|" ["https://example.com/image_0.png",
      "https://example.com/image_1.png"]
      = "https://example.com/image_0.png|https://example.com/image_1.png"
    ∧ dalleRunOutput "," [] = "No image was generated" := by
  refine ⟨?_, (run_joins_urls_or_marker "," []).1 rfl⟩
  rw [(run_joins_urls_or_marker "|" ["https://example.com/image_0.png",
    "https://example.com/image_1.png"]).2.2.1]
  decide
